import Mathlib

/-!
Shallow embedding of `src/OpenVoice/openvoice/voice_server.py` (an HTTP
voice-cloning service).  Filesystem paths are modelled as lists of path
components (so `f"{dir}/a/b"` becomes `dir ++ ["a", "b"]`), and the filesystem
as the set of existing files plus the set of explicitly created directories.
The external model library (embedding extraction, TTS, tone-color conversion)
and the network download are black-box collaborators: their outcomes are
inputs of the embedded operations (success flags, the content of the
downloaded archive).
-/

namespace VoiceServer

/-- Filesystem path, as its list of components. -/
abbrev FPath := List String

/-- Filesystem state: the files that exist, and the directories created
explicitly (e.g. by `os.makedirs`).  A directory also exists implicitly when
some file or explicit directory lies strictly below it. -/
structure FS where
  files : List FPath
  dirs : List FPath
  deriving Repr, DecidableEq

/-- Check that a file exists at the path (`os.path.isfile`). -/
def FS.fileExists (fs : FS) (p : FPath) : Bool :=
  fs.files.contains p

/-- Check that a directory exists at the path: either it was created
explicitly (possibly with descendants), or some existing file lies strictly
below it. -/
def FS.dirExists (fs : FS) (p : FPath) : Bool :=
  fs.dirs.any (fun d => p.isPrefixOf d) ||
    fs.files.any (fun f => p.isPrefixOf f && p ≠ f)

/-- Check that the path exists as a file or as a directory
(`os.path.exists`). -/
def FS.pathExists (fs : FS) (p : FPath) : Bool :=
  fs.fileExists p || fs.dirExists p

/-- Content of the downloaded archive once extracted into the temporary
directory: the extracted files (paths relative to the temporary directory)
and the directories of the extracted tree in `os.walk` order (top-down, the
root `[]` first). -/
structure Archive where
  files : List FPath
  walkDirs : List FPath
  deriving Repr, DecidableEq

/-- Check that the extracted tree has both marker files `m1` and `m2` under
directory `root` (the condition of the `os.walk` scan). -/
def Archive.hasMarkers (a : Archive) (root m1 m2 : FPath) : Bool :=
  a.files.contains (root ++ m1) && a.files.contains (root ++ m2)

/-- Scan the extracted tree in `os.walk` order for the first directory
containing both marker files. -/
def findCandidateRoot (a : Archive) (m1 m2 : FPath) : Option FPath :=
  a.walkDirs.find? (fun root => a.hasMarkers root m1 m2)

/-- Name of the immediate child of `root` along which `p` descends, when `p`
lies strictly below `root`. -/
def relChildName (root p : FPath) : Option String :=
  if root.isPrefixOf p then (p.drop root.length).head? else none

/-- Immediate entries of directory `root` of the extracted tree
(`os.listdir(candidate_root)`), each name once. -/
def Archive.listdir (a : Archive) (root : FPath) : List String :=
  ((a.files ++ a.walkDirs).filterMap (relChildName root)).dedup

/-- Move the subtree of the extracted tree rooted at `src` to `dst` in the
target filesystem (`shutil.move` of a directory whose destination does not
exist). -/
def moveTree (fs : FS) (a : Archive) (src dst : FPath) : FS :=
  { files := ((a.files.filter (fun f => src.isPrefixOf f)).map
        (fun f => dst ++ f.drop src.length)) ++ fs.files,
    dirs := dst :: ((a.walkDirs.filter (fun d => src.isPrefixOf d)).map
        (fun d => dst ++ d.drop src.length)) ++ fs.dirs }

/-- Merge one entry of the candidate root into the checkpoint directory: a
directory entry is moved only when its destination does not already exist, a
file entry is always moved. -/
def mergeItem (a : Archive) (root ckdir : FPath) (fs : FS) (item : String) : FS :=
  let src := root ++ [item]
  let dst := ckdir ++ [item]
  if a.walkDirs.contains src then
    if fs.pathExists dst then fs else moveTree fs a src dst
  else
    { fs with files := dst :: fs.files }

/-- Relative paths of the three artifacts `ensure_checkpoints` requires under
the checkpoint directory. -/
def requiredRelPaths : List FPath :=
  [["converter", "config.json"],
   ["converter", "checkpoint.pth"],
   ["base_speakers", "ses", "en-newest.pth"]]

/-- Absolute paths of the three required artifacts. -/
def requiredPaths (ckdir : FPath) : List FPath :=
  requiredRelPaths.map (fun r => ckdir ++ r)

/-- Embedding of `ensure_checkpoints`: return immediately when every required
path exists; otherwise create the checkpoint directory, download and extract
the archive, locate the candidate root by the marker scan, and merge its
entries.  The error case (`RuntimeError`) carries the filesystem at the time
of the raise. -/
def ensure_checkpoints (ckdir : FPath) (fs : FS) (a : Archive) : Except FS FS :=
  if (requiredPaths ckdir).all (fun p => fs.pathExists p) then
    Except.ok fs
  else
    let fs1 : FS := { fs with dirs := ckdir :: fs.dirs }
    match findCandidateRoot a ["converter", "config.json"]
        ["converter", "checkpoint.pth"] with
    | none => Except.error fs1
    | some root =>
        Except.ok ((a.listdir root).foldl (mergeItem a root ckdir) fs1)

/-- Relative paths of the two artifacts `ensure_base_checkpoints_v1` requires
under its fixed base directory `checkpoints`. -/
def requiredPathsV1 : List FPath :=
  [["checkpoints", "base_speakers", "EN", "config.json"],
   ["checkpoints", "base_speakers", "EN", "checkpoint.pth"]]

/-- Embedding of `ensure_base_checkpoints_v1`: ensure the V1 base TTS
checkpoints exist under the fixed directory `checkpoints`, downloading and
merging the V1 archive when missing, and return the base directory path
together with the resulting filesystem. -/
def ensure_base_checkpoints_v1 (fs : FS) (a : Archive) : Except FS (FS × FPath) :=
  let base_dir : FPath := ["checkpoints"]
  if requiredPathsV1.all (fun p => fs.pathExists p) then
    Except.ok (fs, base_dir)
  else
    let fs1 : FS := { fs with dirs := base_dir :: fs.dirs }
    match findCandidateRoot a ["base_speakers", "EN", "config.json"]
        ["base_speakers", "EN", "checkpoint.pth"] with
    | none => Except.error fs1
    | some root =>
        Except.ok ((a.listdir root).foldl (mergeItem a root base_dir) fs1, base_dir)

/-- Row of the `voice_models` table. -/
structure VoiceRow where
  id : String
  name : String
  description : Option String
  file_path : String
  se_file_path : String
  created_at : String
  deriving Repr, DecidableEq

/-- Row of the `generated_audio` table.  The `speed` column (a SQL `REAL`,
a Python float merely stored and echoed back, never computed with) is
modelled as a rational number. -/
structure AudioRow where
  id : String
  voice_id : String
  text : String
  file_path : String
  accent : String
  speed : Rat
  created_at : String
  deriving Repr, DecidableEq

/-- State of the SQLite database (`voice_database.db`). -/
structure DB where
  voice_models : List VoiceRow
  generated_audio : List AudioRow
  deriving Repr, DecidableEq

/-- Whole server state: the database, the files under the service's `voices`
and `audio_files` directories (string paths, newest first), and the
checkpoint filesystem.  Temporary files made by `tempfile` live outside these
directories and are not tracked. -/
structure ServerState where
  db : DB
  files : List String
  ckfs : FS
  deriving Repr, DecidableEq

/-- HTTP outcome of a request, identified by status code. -/
inductive Resp where
  | ok
  | badRequest
  | notFound
  | serverError
  deriving Repr, DecidableEq

/-- Body of a `/synthesize/` request (`TTSRequest`). -/
structure TTSRequest where
  text : String
  voice_id : String
  accent : String := "en-newest"
  speed : Rat := 1
  deriving Repr, DecidableEq

/-- Embedding of the `ACCENT_TO_SES_FILE` dictionary, as an association
list in the source's insertion order. -/
def ACCENT_TO_SES_FILE : List (String × String) :=
  [("en-au", "en-au.pth"), ("en-br", "en-br.pth"), ("en-default", "en-default.pth"),
   ("en-india", "en-india.pth"), ("en-newest", "en-newest.pth"), ("en-us", "en-us.pth"),
   ("es", "es.pth"), ("fr", "fr.pth"), ("jp", "jp.pth"), ("kr", "kr.pth"),
   ("zh", "zh.pth")]

/-- Embedding of `ACCENT_TO_SES_FILE.get(request.accent, 'en-newest.pth')`. -/
def sesFileFor (accent : String) : String :=
  match ACCENT_TO_SES_FILE.find? (fun p => p.1 == accent) with
  | some p => p.2
  | none => "en-newest.pth"

/-- Directory for uploaded voice samples. -/
def VOICES_DIR : String := "voices"

/-- Directory for generated audio. -/
def AUDIO_DIR : String := "audio_files"

/-- Path of the saved voice sample: `voices/{voice_id}{extension}`, where the
extension is the upload's suffix, or `.wav` when the filename has none. -/
def voiceFilePath (voice_id file_suffix : String) : String :=
  VOICES_DIR ++ "/" ++ voice_id ++ (if file_suffix = "" then ".wav" else file_suffix)

/-- Path of the saved speaker embedding: `voices/{voice_id}.pth`. -/
def seFilePath (voice_id : String) : String :=
  VOICES_DIR ++ "/" ++ voice_id ++ ".pth"

/-- Remove a file when it exists (the `os.path.exists` / `os.remove` cleanup
of the upload handler's `except` branch). -/
def removeIfExists (files : List String) (p : String) : List String :=
  if files.contains p then files.erase p else files

/-- Embedding of `s.startswith(pre)`, decided on the character lists. -/
def startsWithB (s pre : String) : Bool :=
  pre.data.isPrefixOf s.data

/-- Write a file at path `p` (the semantics of `open(p, "wb")` followed by a
full write: an absent path is created, an existing one is truncated and
rewritten in place, so the set of existing paths gains `p` at most once). -/
def writeFile (files : List String) (p : String) : List String :=
  if files.contains p then files else p :: files

/-- Embedding of the `/upload_voice/` handler.  The black-box embedding
extraction and `torch.save` are modelled by the success flags `extractOk` and
`saveOk`; the `INSERT` raises exactly when the primary key `voice_id` is
already taken.  On any exception inside the `try`, both files written for the
upload are removed and the request fails with a 500. -/
def upload_voice (st : ServerState) (content_type file_suffix nm : String)
    (description : Option String) (voice_id now : String)
    (extractOk saveOk : Bool) : ServerState × Resp :=
  if !(startsWithB content_type "audio/") then
    (st, Resp.badRequest)
  else
    let vp := voiceFilePath voice_id file_suffix
    let sp := seFilePath voice_id
    let st1 : ServerState := { st with files := writeFile st.files vp }
    if !extractOk then
      ({ st1 with files := removeIfExists (removeIfExists st1.files vp) sp },
        Resp.serverError)
    else if !saveOk then
      ({ st1 with files := removeIfExists (removeIfExists st1.files vp) sp },
        Resp.serverError)
    else
      let st2 : ServerState := { st1 with files := writeFile st1.files sp }
      if st.db.voice_models.any (fun v => v.id == voice_id) then
        ({ st2 with files := removeIfExists (removeIfExists st2.files vp) sp },
          Resp.serverError)
      else
        ({ st2 with db := { st2.db with voice_models :=
            { id := voice_id, name := nm, description := description,
              file_path := vp, se_file_path := sp,
              created_at := now } :: st2.db.voice_models } }, Resp.ok)

/-- Embedding of `GET /voices/`: a read-only projection of `voice_models`. -/
def list_voices (st : ServerState) :
    ServerState × List (String × String × Option String × String) :=
  (st, st.db.voice_models.map (fun v => (v.id, v.name, v.description, v.created_at)))

/-- Embedding of `GET /audio/{audio_id}`: 404 unless the record exists and
its file is on disk; no state change. -/
def get_audio (st : ServerState) (audio_id : String) : ServerState × Resp :=
  match st.db.generated_audio.find? (fun g => g.id == audio_id) with
  | none => (st, Resp.notFound)
  | some g =>
      if st.files.contains g.file_path then (st, Resp.ok) else (st, Resp.notFound)

/-- Embedding of `GET /history/`: the read-only inner join of
`generated_audio` with `voice_models` (the `ORDER BY` is not modelled). -/
def get_generation_history (st : ServerState) :
    ServerState × List (String × String × String) :=
  (st, st.db.generated_audio.filterMap (fun g =>
    (st.db.voice_models.find? (fun v => v.id == g.voice_id)).map
      (fun v => (g.id, v.name, g.text))))

/-- Paths handed to the external model library during a synthesize request:
the base TTS config and checkpoint, and the accent source-embedding file. -/
structure SynthTrace where
  baseCfg : FPath
  baseCkpt : FPath
  sesPath : FPath
  deriving Repr, DecidableEq

/-- Result of a synthesize request: the new server state, the HTTP outcome,
and the model-call paths when execution reached the model calls. -/
structure SynthOut where
  state : ServerState
  resp : Resp
  trace : Option SynthTrace
  deriving Repr, DecidableEq

/-- Embedding of the `/synthesize/` handler: look the voice up (404 with no
insert when absent), load its embedding, prefer the V2 `EN_V2` base
checkpoint when both of its files exist and otherwise fall back to the V1
`EN` one via `ensure_base_checkpoints_v1`, resolve the accent to a
source-embedding file under `base_speakers/ses`, run TTS and conversion
(black boxes, modelled by the flags `ttsOk` and `convertOk`), and insert the
`generated_audio` row; the `INSERT` raises exactly when `output_id` is
already taken, and any exception inside the `try` yields a 500. -/
def synthesize_speech (ckdir : FPath) (st : ServerState) (req : TTSRequest)
    (output_id now : String) (v1a : Archive) (ttsOk convertOk : Bool) : SynthOut :=
  match st.db.voice_models.find? (fun v => v.id == req.voice_id) with
  | none => { state := st, resp := Resp.notFound, trace := none }
  | some row =>
      if !(st.files.contains row.se_file_path) then
        { state := st, resp := Resp.serverError, trace := none }
      else
        let v2cfg := ckdir ++ ["base_speakers", "EN_V2", "config.json"]
        let v2ckpt := ckdir ++ ["base_speakers", "EN_V2", "checkpoint.pth"]
        let sel : Except FS (FS × FPath × FPath) :=
          if st.ckfs.pathExists v2cfg && st.ckfs.pathExists v2ckpt then
            Except.ok (st.ckfs, v2cfg, v2ckpt)
          else
            (ensure_base_checkpoints_v1 st.ckfs v1a).map
              (fun p => (p.1, p.2 ++ ["base_speakers", "EN", "config.json"],
                p.2 ++ ["base_speakers", "EN", "checkpoint.pth"]))
        match sel with
        | Except.error ckfs1 =>
            { state := { st with ckfs := ckfs1 }, resp := Resp.serverError,
              trace := none }
        | Except.ok (ckfs1, baseCfg, baseCkpt) =>
            let source_se_path := ckdir ++ ["base_speakers", "ses", sesFileFor req.accent]
            let tr : SynthTrace :=
              { baseCfg := baseCfg, baseCkpt := baseCkpt, sesPath := source_se_path }
            let st1 : ServerState := { st with ckfs := ckfs1 }
            if !(ckfs1.pathExists source_se_path) then
              { state := st1, resp := Resp.serverError, trace := some tr }
            else if !ttsOk then
              { state := st1, resp := Resp.serverError, trace := some tr }
            else if !convertOk then
              { state := st1, resp := Resp.serverError, trace := some tr }
            else
              let output_path := AUDIO_DIR ++ "/" ++ output_id ++ ".wav"
              let st2 : ServerState := { st1 with files := output_path :: st1.files }
              if st.db.generated_audio.any (fun g => g.id == output_id) then
                { state := st2, resp := Resp.serverError, trace := some tr }
              else
                { state := { st2 with db := { st2.db with generated_audio :=
                    { id := output_id, voice_id := req.voice_id, text := req.text,
                      file_path := output_path, accent := req.accent,
                      speed := req.speed, created_at := now } ::
                        st2.db.generated_audio } },
                  resp := Resp.ok, trace := some tr }

/-- One request to the service, carrying the outcomes of its black-box
collaborators (fresh identifiers, timestamps, external model success). -/
inductive Op where
  | upload (content_type file_suffix nm : String) (description : Option String)
      (voice_id now : String) (extractOk saveOk : Bool)
  | listVoices
  | synthesize (req : TTSRequest) (output_id now : String) (v1a : Archive)
      (ttsOk convertOk : Bool)
  | getAudio (audio_id : String)
  | history

/-- Apply one request to the server state, dropping the response. -/
def step (ckdir : FPath) (st : ServerState) (op : Op) : ServerState :=
  match op with
  | Op.upload ct suf nm d vid now e s => (upload_voice st ct suf nm d vid now e s).1
  | Op.listVoices => (list_voices st).1
  | Op.synthesize req oid now v1a t c =>
      (synthesize_speech ckdir st req oid now v1a t c).state
  | Op.getAudio aid => (get_audio st aid).1
  | Op.history => (get_generation_history st).1

/-- Server state reached from `st` by a sequence of requests. -/
def runOps (ckdir : FPath) (st : ServerState) (ops : List Op) : ServerState :=
  ops.foldl (step ckdir) st

/-- Initial server state: `init_database` has created empty tables, no voice
or audio file has been written, and the checkpoint filesystem is `ck`. -/
def initState (ck : FS) : ServerState :=
  { db := { voice_models := [], generated_audio := [] }, files := [], ckfs := ck }

/-- Referential integrity of `generated_audio`: every row's `voice_id`
resolves to a `voice_models` row. -/
def refIntactB (db : DB) : Bool :=
  db.generated_audio.all (fun g => db.voice_models.any (fun v => v.id == g.voice_id))

/-- Checkpoint directory used by the concrete evaluations (the default
`checkpoints_v2`). -/
def ckDemo : FPath := ["checkpoints_v2"]

/-- Filesystem where the converter directory is only partially populated:
`config.json` is present but `checkpoint.pth` is not. -/
def fsPartialConverter : FS :=
  { files := [["checkpoints_v2", "converter", "config.json"]], dirs := [] }

/-- Archive whose extracted tree carries all three required artifacts under
its top-level `checkpoint` folder. -/
def archiveDemo : Archive :=
  { files := [["checkpoint", "converter", "config.json"],
              ["checkpoint", "converter", "checkpoint.pth"],
              ["checkpoint", "base_speakers", "ses", "en-newest.pth"]],
    walkDirs := [[], ["checkpoint"], ["checkpoint", "converter"],
                 ["checkpoint", "base_speakers"], ["checkpoint", "base_speakers", "ses"]] }

/-- Voice row used by the concrete evaluations. -/
def rowDemo : VoiceRow :=
  { id := "v1", name := "alice", description := none,
    file_path := "voices/v1.wav", se_file_path := "voices/v1.pth",
    created_at := "t0" }

/-- Server state holding one uploaded voice and its files. -/
def stDemo : ServerState :=
  { db := { voice_models := [rowDemo], generated_audio := [] },
    files := ["voices/v1.pth", "voices/v1.wav"],
    ckfs := { files := [], dirs := [] } }

/-- Request sequence exercising every operation of the service. -/
def opsDemo : List Op :=
  [Op.listVoices,
   Op.upload "audio/wav" ".wav" "bob" none "v2" "t1" true true,
   Op.synthesize { text := "hello", voice_id := "v1" } "a1" "t2"
     { files := [], walkDirs := [] } true true,
   Op.history,
   Op.getAudio "a1"]

/-- Checkpoint filesystem carrying the V2 `EN_V2` base checkpoint. -/
def ckfsV2 : FS :=
  { files := [["checkpoints_v2", "base_speakers", "EN_V2", "config.json"],
              ["checkpoints_v2", "base_speakers", "EN_V2", "checkpoint.pth"]],
    dirs := [] }

/-- Server state holding one voice and the V2 base checkpoint files. -/
def stV2 : ServerState :=
  { db := { voice_models := [rowDemo], generated_audio := [] },
    files := ["voices/v1.pth"], ckfs := ckfsV2 }

/-- Archive with no content at all. -/
def emptyArchive : Archive := { files := [], walkDirs := [] }

/-- Model-call paths of a synthesize request served from `stV2` with the
default accent. -/
def trV2 : SynthTrace :=
  { baseCfg := ["checkpoints_v2", "base_speakers", "EN_V2", "config.json"],
    baseCkpt := ["checkpoints_v2", "base_speakers", "EN_V2", "checkpoint.pth"],
    sesPath := ["checkpoints_v2", "base_speakers", "ses", "en-newest.pth"] }

lemma isPrefixOf_append_self (l t : FPath) : l.isPrefixOf (l ++ t) = true := by
  simp [List.isPrefixOf_iff_prefix]

lemma not_prefix_child_of_base (ck : FPath) (n : String) :
    ¬ (ck ++ [n]) <+: ck := by
  intro h
  have := h.length_le
  simp at this

lemma not_prefix_other_child (ck : FPath) (n x : String) (t : FPath) (hx : x ≠ n) :
    ¬ (ck ++ [n]) <+: (ck ++ [x]) ++ t := by
  rw [List.append_assoc, List.prefix_append_right_inj]
  intro h
  rw [List.singleton_append, List.cons_prefix_cons] at h
  exact hx h.1.symm

lemma ne_other_child (ck : FPath) (n x : String) (t : FPath) (hx : x ≠ n) :
    ck ++ [n] ≠ (ck ++ [x]) ++ t := by
  intro h
  exact not_prefix_other_child ck n x t hx (h ▸ List.prefix_refl _)

lemma pathExists_false_iff (fs : FS) (p : FPath) :
    fs.pathExists p = false ↔
      (p ∉ fs.files) ∧ (∀ d ∈ fs.dirs, ¬ p <+: d) ∧
        (∀ f ∈ fs.files, p <+: f → p = f) := by
  simp only [FS.pathExists, FS.fileExists, FS.dirExists, Bool.or_eq_false_iff,
    Bool.and_eq_false_iff, List.any_eq_false, List.contains, List.elem_eq_mem,
    decide_eq_false_iff_not, Bool.and_eq_true, List.isPrefixOf_iff_prefix,
    decide_eq_true_eq, not_and, ne_eq, not_not]

lemma fileExists_iff (fs : FS) (p : FPath) :
    fs.fileExists p = true ↔ p ∈ fs.files := by
  simp [FS.fileExists, List.contains, List.elem_eq_mem]

lemma mergeItem_files_mono (a : Archive) (root ckdir : FPath) (fs : FS)
    (item : String) (p : FPath) (h : p ∈ fs.files) :
    p ∈ (mergeItem a root ckdir fs item).files := by
  unfold mergeItem moveTree
  dsimp only
  split
  · split
    · exact h
    · exact List.mem_append_right _ h
  · exact List.mem_cons_of_mem _ h

lemma foldl_mergeItem_files_mono (a : Archive) (root ckdir : FPath)
    (items : List String) (fs : FS) (p : FPath) (h : p ∈ fs.files) :
    p ∈ (items.foldl (mergeItem a root ckdir) fs).files := by
  induction items generalizing fs with
  | nil => exact h
  | cons x rest ih =>
      rw [List.foldl_cons]
      exact ih _ (mergeItem_files_mono a root ckdir fs x p h)

lemma mergeItem_preserves_not_exists (a : Archive) (root ckdir : FPath) (fs : FS)
    (x n : String) (hx : x ≠ n)
    (h : fs.pathExists (ckdir ++ [n]) = false) :
    (mergeItem a root ckdir fs x).pathExists (ckdir ++ [n]) = false := by
  rw [pathExists_false_iff] at h ⊢
  obtain ⟨h1, h2, h3⟩ := h
  unfold mergeItem moveTree
  dsimp only
  split
  · split
    · exact ⟨h1, h2, h3⟩
    · refine ⟨?_, ?_, ?_⟩
      · intro hmem
        rcases List.mem_append.mp hmem with hm | hm
        · obtain ⟨f, _, hf⟩ := List.mem_map.mp hm
          exact ne_other_child ckdir n x _ hx hf.symm
        · exact h1 hm
      · intro d hd
        rcases List.mem_cons.mp hd with rfl | hd
        · exact fun hp => not_prefix_other_child ckdir n x [] hx (by simpa using hp)
        · rcases List.mem_append.mp hd with hm | hm
          · obtain ⟨f, _, hf⟩ := List.mem_map.mp hm
            exact hf ▸ not_prefix_other_child ckdir n x _ hx
          · exact h2 d hm
      · intro f hf hp
        rcases List.mem_append.mp hf with hm | hm
        · obtain ⟨g, _, hg⟩ := List.mem_map.mp hm
          exact absurd (hg ▸ hp) (not_prefix_other_child ckdir n x _ hx)
        · exact h3 f hm hp
  · refine ⟨?_, h2, ?_⟩
    · intro hmem
      rcases List.mem_cons.mp hmem with heq | hm
      · exact ne_other_child ckdir n x [] hx (by simpa using heq)
      · exact h1 hm
    · intro f hf hp
      rcases List.mem_cons.mp hf with rfl | hm
      · exact absurd hp (by simpa using not_prefix_other_child ckdir n x [] hx)
      · exact h3 f hm hp

lemma pathExists_of_mem_files (fs : FS) (p : FPath) (h : p ∈ fs.files) :
    fs.pathExists p = true := by
  unfold FS.pathExists
  rw [(fileExists_iff fs p).mpr h, Bool.true_or]

lemma pathExists_mkdir_false (fs : FS) (ckdir : FPath) (n : String)
    (h : fs.pathExists (ckdir ++ [n]) = false) :
    FS.pathExists { fs with dirs := ckdir :: fs.dirs } (ckdir ++ [n]) = false := by
  rw [pathExists_false_iff] at h ⊢
  obtain ⟨h1, h2, h3⟩ := h
  refine ⟨h1, fun d hd => ?_, h3⟩
  rcases List.mem_cons.mp hd with rfl | hd
  · exact not_prefix_child_of_base _ _
  · exact h2 d hd

lemma mem_listdir_of_file (a : Archive) (root : FPath) (n : String) (r : FPath)
    (hf : (root ++ [n]) ++ r ∈ a.files) :
    n ∈ a.listdir root := by
  unfold Archive.listdir
  rw [List.mem_dedup]
  apply List.mem_filterMap.mpr
  refine ⟨(root ++ [n]) ++ r, List.mem_append_left _ hf, ?_⟩
  simp [relChildName, List.append_assoc, isPrefixOf_append_self, List.drop_left]

lemma foldl_mergeItem_delivers (a : Archive) (root ckdir : FPath) (n : String)
    (r : FPath) (items : List String) (fs : FS)
    (hdir : a.walkDirs.contains (root ++ [n]) = true)
    (hfile : (root ++ [n]) ++ r ∈ a.files)
    (hmem : n ∈ items)
    (hnot : fs.pathExists (ckdir ++ [n]) = false) :
    (ckdir ++ [n]) ++ r ∈ (items.foldl (mergeItem a root ckdir) fs).files := by
  induction items generalizing fs with
  | nil => cases hmem
  | cons x rest ih =>
      rw [List.foldl_cons]
      by_cases hx : x = n
      · subst hx
        have hstep : (ckdir ++ [x]) ++ r ∈ (mergeItem a root ckdir fs x).files := by
          unfold mergeItem
          simp only [hdir, if_true, hnot]
          rw [if_neg (by simp)]
          unfold moveTree
          apply List.mem_append_left
          apply List.mem_map.mpr
          refine ⟨(root ++ [x]) ++ r,
            List.mem_filter.mpr ⟨hfile, isPrefixOf_append_self _ _⟩, ?_⟩
          rw [List.drop_left]
        exact foldl_mergeItem_files_mono a root ckdir rest _ _ hstep
      · have hmem' : n ∈ rest := by
          rcases List.mem_cons.mp hmem with h | h
          · exact absurd h.symm hx
          · exact h
        exact ih (mergeItem a root ckdir fs x) hmem'
          (mergeItem_preserves_not_exists a root ckdir fs x n hx hnot)

/-- C1 (amended): when the marker scan finds a candidate root whose subtree
contains all three required artifacts (with `converter` and `base_speakers`
listed as directories of the walk), and neither `checkpoint_dir/converter`
nor `checkpoint_dir/base_speakers` already exists, every normal return of
`ensure_checkpoints` leaves all three required artifact paths existing. -/
theorem ensure_checkpoints_provides_artifacts (ckdir : FPath) (fs : FS) (a : Archive)
    (root : FPath)
    (hroot : findCandidateRoot a ["converter", "config.json"]
      ["converter", "checkpoint.pth"] = some root)
    (hdc : a.walkDirs.contains (root ++ ["converter"]) = true)
    (hdb : a.walkDirs.contains (root ++ ["base_speakers"]) = true)
    (hf1 : (root ++ ["converter"]) ++ ["config.json"] ∈ a.files)
    (hf2 : (root ++ ["converter"]) ++ ["checkpoint.pth"] ∈ a.files)
    (hf3 : (root ++ ["base_speakers"]) ++ ["ses", "en-newest.pth"] ∈ a.files)
    (hnc : fs.pathExists (ckdir ++ ["converter"]) = false)
    (hnb : fs.pathExists (ckdir ++ ["base_speakers"]) = false) :
    (ensure_checkpoints ckdir fs a).toOption.all
      (fun s => (requiredPaths ckdir).all (fun p => s.pathExists p)) = true := by
  unfold ensure_checkpoints
  cases hall : (requiredPaths ckdir).all (fun p => fs.pathExists p) with
  | true => simp [hall, Except.toOption]
  | false =>
      rw [if_neg (by simp [hall])]
      rw [hroot]
      simp only [Except.toOption, Option.all_some]
      set fs1 : FS := { fs with dirs := ckdir :: fs.dirs } with hfs1
      have hnc1 : fs1.pathExists (ckdir ++ ["converter"]) = false :=
        pathExists_mkdir_false fs ckdir "converter" hnc
      have hnb1 : fs1.pathExists (ckdir ++ ["base_speakers"]) = false :=
        pathExists_mkdir_false fs ckdir "base_speakers" hnb
      have hmc : "converter" ∈ a.listdir root := mem_listdir_of_file a root _ _ hf1
      have hmb : "base_speakers" ∈ a.listdir root := mem_listdir_of_file a root _ _ hf3
      have d1 := foldl_mergeItem_delivers a root ckdir "converter" ["config.json"]
        (a.listdir root) fs1 hdc hf1 hmc hnc1
      have d2 := foldl_mergeItem_delivers a root ckdir "converter" ["checkpoint.pth"]
        (a.listdir root) fs1 hdc hf2 hmc hnc1
      have d3 := foldl_mergeItem_delivers a root ckdir "base_speakers"
        ["ses", "en-newest.pth"] (a.listdir root) fs1 hdb hf3 hmb hnb1
      simp only [requiredPaths, requiredRelPaths, List.map_cons, List.map_nil,
        List.all_cons, List.all_nil, Bool.and_true, Bool.and_eq_true]
      refine ⟨pathExists_of_mem_files _ _ ?_, pathExists_of_mem_files _ _ ?_,
        pathExists_of_mem_files _ _ ?_⟩
      · simpa using d1
      · simpa using d2
      · simpa using d3

/-- C1 (counterexample to the unamended claim): starting from a filesystem
where `checkpoints_v2/converter` holds only `config.json`, and an archive
carrying all three artifacts, `ensure_checkpoints` returns normally yet
`checkpoints_v2/converter/checkpoint.pth` still does not exist, because the
merge skips directory entries whose destination already exists. -/
theorem ensure_checkpoints_cex :
    (ensure_checkpoints ckDemo fsPartialConverter archiveDemo).toOption.isSome = true ∧
      (ensure_checkpoints ckDemo fsPartialConverter archiveDemo).toOption.all
        (fun s => (requiredPaths ckDemo).all (fun p => s.pathExists p)) = false := by
  decide

/-- C1 witness: the amended theorem applied to the empty filesystem and the
complete demo archive. -/
theorem ensure_checkpoints_provides_artifacts_witness :
    (ensure_checkpoints ckDemo { files := [], dirs := [] } archiveDemo).toOption.all
      (fun s => (requiredPaths ckDemo).all (fun p => s.pathExists p)) = true :=
  ensure_checkpoints_provides_artifacts ckDemo { files := [], dirs := [] } archiveDemo
    ["checkpoint"] (by decide) (by decide) (by decide) (by decide) (by decide)
    (by decide) (by decide) (by decide)

/-- C2 (confirmed): when every required artifact path already exists,
`ensure_checkpoints` returns immediately with the filesystem unchanged, for
any archive the download would yield (nothing is downloaded, created, moved
or deleted). -/
theorem ensure_checkpoints_noop_when_present (ckdir : FPath) (fs : FS) (a : Archive)
    (h : (requiredPaths ckdir).all (fun p => fs.pathExists p) = true) :
    ensure_checkpoints ckdir fs a = Except.ok fs := by
  unfold ensure_checkpoints
  rw [if_pos (by simp [h])]

/-- C2 witness: the early return on a filesystem holding the three
artifacts. -/
theorem ensure_checkpoints_noop_witness :
    ensure_checkpoints ckDemo
      { files := [["checkpoints_v2", "converter", "config.json"],
                  ["checkpoints_v2", "converter", "checkpoint.pth"],
                  ["checkpoints_v2", "base_speakers", "ses", "en-newest.pth"]],
        dirs := [] }
      { files := [], walkDirs := [] } =
      Except.ok
        { files := [["checkpoints_v2", "converter", "config.json"],
                    ["checkpoints_v2", "converter", "checkpoint.pth"],
                    ["checkpoints_v2", "base_speakers", "ses", "en-newest.pth"]],
          dirs := [] } :=
  ensure_checkpoints_noop_when_present _ _ _ (by decide)

/-- C3 (confirmed): when some required artifact is missing and no directory
of the extracted archive contains both marker files
`converter/config.json` and `converter/checkpoint.pth`, `ensure_checkpoints`
raises (the error outcome) and merges nothing into the target directory: the
file set is unchanged, only the `os.makedirs` of the checkpoint directory
has happened. -/
theorem ensure_checkpoints_error_without_markers (ckdir : FPath) (fs : FS) (a : Archive)
    (hmiss : (requiredPaths ckdir).all (fun p => fs.pathExists p) = false)
    (hnone : ∀ root ∈ a.walkDirs,
      a.hasMarkers root ["converter", "config.json"] ["converter", "checkpoint.pth"]
        = false) :
    ensure_checkpoints ckdir fs a =
      Except.error { files := fs.files, dirs := ckdir :: fs.dirs } := by
  have hfind : findCandidateRoot a ["converter", "config.json"]
      ["converter", "checkpoint.pth"] = none := by
    unfold findCandidateRoot
    exact List.find?_eq_none.mpr (fun x hx => by simp [hnone x hx])
  unfold ensure_checkpoints
  rw [if_neg (by simp [hmiss]), hfind]

/-- C3 witness: an archive with no marker files makes the bootstrap raise
with nothing merged. -/
theorem ensure_checkpoints_error_witness :
    ensure_checkpoints ckDemo { files := [], dirs := [] }
      { files := [["readme.txt"]], walkDirs := [[]] } =
      Except.error { files := [], dirs := [ckDemo] } :=
  ensure_checkpoints_error_without_markers _ _ _ (by decide) (by decide)

lemma upload_db_shape (st : ServerState) (ct suf nm : String) (d : Option String)
    (vid now : String) (e sv : Bool) :
    ((upload_voice st ct suf nm d vid now e sv).1.db.generated_audio =
        st.db.generated_audio) ∧
      ((upload_voice st ct suf nm d vid now e sv).1.db.voice_models =
          st.db.voice_models ∨
        (upload_voice st ct suf nm d vid now e sv).1.db.voice_models =
          { id := vid, name := nm, description := d,
            file_path := voiceFilePath vid suf, se_file_path := seFilePath vid,
            created_at := now } :: st.db.voice_models) := by
  unfold upload_voice
  dsimp only
  split
  · exact ⟨rfl, Or.inl rfl⟩
  · split
    · exact ⟨rfl, Or.inl rfl⟩
    · split
      · exact ⟨rfl, Or.inl rfl⟩
      · split
        · exact ⟨rfl, Or.inl rfl⟩
        · exact ⟨rfl, Or.inr rfl⟩

lemma synthesize_db_shape (ckdir : FPath) (st : ServerState) (req : TTSRequest)
    (oid now : String) (v1a : Archive) (t c : Bool) :
    ((synthesize_speech ckdir st req oid now v1a t c).state.db.voice_models =
        st.db.voice_models) ∧
      ((synthesize_speech ckdir st req oid now v1a t c).state.db.generated_audio =
          st.db.generated_audio ∨
        ∃ v, st.db.voice_models.find? (fun x => x.id == req.voice_id) = some v ∧
          (synthesize_speech ckdir st req oid now v1a t c).state.db.generated_audio =
            { id := oid, voice_id := req.voice_id, text := req.text,
              file_path := AUDIO_DIR ++ "/" ++ oid ++ ".wav", accent := req.accent,
              speed := req.speed, created_at := now } :: st.db.generated_audio) := by
  unfold synthesize_speech
  cases hf : st.db.voice_models.find? (fun v => v.id == req.voice_id) with
  | none => exact ⟨rfl, Or.inl rfl⟩
  | some v =>
    dsimp only
    split
    · exact ⟨rfl, Or.inl rfl⟩
    · split
      · exact ⟨rfl, Or.inl rfl⟩
      · split
        · exact ⟨rfl, Or.inl rfl⟩
        · split
          · exact ⟨rfl, Or.inl rfl⟩
          · split
            · exact ⟨rfl, Or.inl rfl⟩
            · split
              · exact ⟨rfl, Or.inl rfl⟩
              · exact ⟨rfl, Or.inr ⟨v, rfl, rfl⟩⟩

lemma get_audio_state_eq (st : ServerState) (aid : String) :
    (get_audio st aid).1 = st := by
  unfold get_audio
  cases st.db.generated_audio.find? (fun g => g.id == aid) with
  | none => rfl
  | some g =>
      dsimp only
      split <;> rfl

lemma refIntactB_iff (db : DB) :
    refIntactB db = true ↔
      ∀ g ∈ db.generated_audio, ∃ v ∈ db.voice_models, v.id = g.voice_id := by
  simp [refIntactB, List.all_eq_true, List.any_eq_true, beq_iff_eq]

lemma step_preserves_refIntact (ckdir : FPath) (st : ServerState) (op : Op)
    (h : refIntactB st.db = true) : refIntactB (step ckdir st op).db = true := by
  rw [refIntactB_iff] at h ⊢
  cases op with
  | upload ct suf nm d vid now e sv =>
      obtain ⟨hg, hv⟩ := upload_db_shape st ct suf nm d vid now e sv
      dsimp only [step]
      rw [hg]
      intro g hgm
      obtain ⟨v, hvm, hvid⟩ := h g hgm
      rcases hv with hv | hv
      · refine ⟨v, ?_, hvid⟩
        rw [hv]
        exact hvm
      · refine ⟨v, ?_, hvid⟩
        rw [hv]
        exact List.mem_cons_of_mem _ hvm
  | listVoices => exact h
  | synthesize req oid now v1a t c =>
      obtain ⟨hvm, hga⟩ := synthesize_db_shape ckdir st req oid now v1a t c
      dsimp only [step]
      rw [hvm]
      rcases hga with hga | ⟨v, hfind, hga⟩
      · rw [hga]
        exact h
      · rw [hga]
        intro g hgm
        rcases List.mem_cons.mp hgm with rfl | hgm
        · refine ⟨v, List.mem_of_find?_eq_some hfind, ?_⟩
          simpa using List.find?_some hfind
        · exact h g hgm
  | getAudio aid =>
      dsimp only [step]
      rw [get_audio_state_eq]
      exact h
  | history => exact h

lemma runOps_preserves_refIntact (ckdir : FPath) (ops : List Op) (st : ServerState)
    (h : refIntactB st.db = true) : refIntactB (runOps ckdir st ops).db = true := by
  induction ops generalizing st with
  | nil => exact h
  | cons op rest ih =>
      exact ih (step ckdir st op) (step_preserves_refIntact ckdir st op h)

lemma step_voice_models_mono (ckdir : FPath) (st : ServerState) (op : Op)
    (r : VoiceRow) (h : r ∈ st.db.voice_models) :
    r ∈ (step ckdir st op).db.voice_models := by
  cases op with
  | upload ct suf nm d vid now e sv =>
      dsimp only [step]
      rcases (upload_db_shape st ct suf nm d vid now e sv).2 with hv | hv
      · rw [hv]
        exact h
      · rw [hv]
        exact List.mem_cons_of_mem _ h
  | listVoices => exact h
  | synthesize req oid now v1a t c =>
      dsimp only [step]
      rw [(synthesize_db_shape ckdir st req oid now v1a t c).1]
      exact h
  | getAudio aid =>
      dsimp only [step]
      rw [get_audio_state_eq]
      exact h
  | history => exact h

/-- C4 (confirmed): the synthesize operation looks the voice id up before any
insert and fails with a 404 — state untouched, nothing inserted — when no
row matches; consequently in every state reachable from the initial one,
every `generated_audio` row's `voice_id` resolves to a `voice_models` row
(which, rows being never deleted, is the row that existed at its creation). -/
theorem generated_audio_refs_resolve (ckdir : FPath) (ck : FS) :
    (∀ (st : ServerState) (req : TTSRequest) (oid now : String) (v1a : Archive)
        (t c : Bool),
        st.db.voice_models.find? (fun v => v.id == req.voice_id) = none →
          synthesize_speech ckdir st req oid now v1a t c =
            { state := st, resp := Resp.notFound, trace := none }) ∧
      ∀ ops : List Op, refIntactB (runOps ckdir (initState ck) ops).db = true := by
  constructor
  · intro st req oid now v1a t c hfind
    unfold synthesize_speech
    rw [hfind]
  · intro ops
    exact runOps_preserves_refIntact ckdir ops (initState ck) rfl

/-- C4 witness: a synthesize request against an unknown voice id returns a
404 and leaves the state unchanged. -/
theorem generated_audio_refs_resolve_witness :
    synthesize_speech ckDemo (initState { files := [], dirs := [] })
      { text := "hi", voice_id := "v1" } "a1" "t1" { files := [], walkDirs := [] }
      true true =
      { state := initState { files := [], dirs := [] }, resp := Resp.notFound,
        trace := none } :=
  (generated_audio_refs_resolve ckDemo { files := [], dirs := [] }).1
    (initState { files := [], dirs := [] }) { text := "hi", voice_id := "v1" }
    "a1" "t1" { files := [], walkDirs := [] } true true rfl

/-- C5 (confirmed): no operation of the service updates or deletes a
`voice_models` row: every row present before a sequence of requests is
present, with identical fields, after it. -/
theorem voice_models_rows_persist (ckdir : FPath) (st : ServerState) (ops : List Op)
    (r : VoiceRow) (h : r ∈ st.db.voice_models) :
    r ∈ (runOps ckdir st ops).db.voice_models := by
  induction ops generalizing st with
  | nil => exact h
  | cons op rest ih =>
      exact ih (step ckdir st op) (step_voice_models_mono ckdir st op r h)

/-- C5 witness: a stored voice row survives a run of every operation. -/
theorem voice_models_rows_persist_witness :
    rowDemo ∈ (runOps ckDemo stDemo opsDemo).db.voice_models :=
  voice_models_rows_persist ckDemo stDemo opsDemo rowDemo (by decide)

lemma ensure_base_v1_base_dir (fs : FS) (a : Archive) (fs2 : FS) (p : FPath)
    (h : ensure_base_checkpoints_v1 fs a = Except.ok (fs2, p)) :
    p = ["checkpoints"] := by
  unfold ensure_base_checkpoints_v1 at h
  dsimp only at h
  split at h
  · exact (Prod.mk.injEq _ _ _ _ ▸ Except.ok.injEq _ _ ▸ h :
      fs = fs2 ∧ ["checkpoints"] = p).2.symm
  · split at h
    · cases h
    · exact ((Prod.mk.injEq _ _ _ _ ▸ Except.ok.injEq _ _ ▸ h :
        _ = fs2 ∧ ["checkpoints"] = p)).2.symm

lemma synthesize_trace_shape (ckdir : FPath) (st : ServerState) (req : TTSRequest)
    (oid now : String) (v1a : Archive) (t c : Bool) (tr : SynthTrace)
    (htr : (synthesize_speech ckdir st req oid now v1a t c).trace = some tr) :
    tr.sesPath = ckdir ++ ["base_speakers", "ses", sesFileFor req.accent] ∧
      (tr.baseCfg, tr.baseCkpt) =
        (if st.ckfs.pathExists (ckdir ++ ["base_speakers", "EN_V2", "config.json"]) &&
            st.ckfs.pathExists (ckdir ++ ["base_speakers", "EN_V2", "checkpoint.pth"]) then
          (ckdir ++ ["base_speakers", "EN_V2", "config.json"],
           ckdir ++ ["base_speakers", "EN_V2", "checkpoint.pth"])
        else
          (["checkpoints", "base_speakers", "EN", "config.json"],
           ["checkpoints", "base_speakers", "EN", "checkpoint.pth"])) := by
  unfold synthesize_speech at htr
  cases hf : st.db.voice_models.find? (fun v => v.id == req.voice_id) with
  | none =>
      rw [hf] at htr
      cases htr
  | some row =>
      rw [hf] at htr
      dsimp only at htr
      split at htr
      · cases htr
      · cases hcond : (st.ckfs.pathExists (ckdir ++ ["base_speakers", "EN_V2", "config.json"]) &&
            st.ckfs.pathExists (ckdir ++ ["base_speakers", "EN_V2", "checkpoint.pth"])) with
        | true =>
            rw [hcond, if_pos rfl] at htr
            dsimp only at htr
            repeat' split at htr
            all_goals cases htr
            all_goals exact ⟨rfl, by simp [hcond]⟩
        | false =>
            rw [hcond] at htr
            rw [if_neg (by simp)] at htr
            cases he : ensure_base_checkpoints_v1 st.ckfs v1a with
            | error e =>
                rw [he] at htr
                dsimp only [Except.map] at htr
                cases htr
            | ok pr =>
                rw [he] at htr
                dsimp only [Except.map] at htr
                have hp : pr.2 = ["checkpoints"] :=
                  ensure_base_v1_base_dir st.ckfs v1a pr.1 pr.2 (by rw [he])
                repeat' split at htr
                all_goals cases htr
                all_goals exact ⟨rfl, by simp [hcond, hp]⟩

lemma sesFileFor_eq_of_mem (acc f : String)
    (hmem : (acc, f) ∈ ACCENT_TO_SES_FILE) : sesFileFor acc = f := by
  fin_cases hmem <;> rfl

/-- C6 (confirmed): the base TTS model is handed the V2 `EN_V2` config and
checkpoint exactly when both of those files exist under the checkpoint
directory, and otherwise the V1 `EN` paths under the `checkpoints` directory
returned by `ensure_base_checkpoints_v1`. -/
theorem base_variant_selection (ckdir : FPath) (st : ServerState) (req : TTSRequest)
    (oid now : String) (v1a : Archive) (t c : Bool) (tr : SynthTrace)
    (htr : (synthesize_speech ckdir st req oid now v1a t c).trace = some tr) :
    (tr.baseCfg, tr.baseCkpt) =
      (if st.ckfs.pathExists (ckdir ++ ["base_speakers", "EN_V2", "config.json"]) &&
          st.ckfs.pathExists (ckdir ++ ["base_speakers", "EN_V2", "checkpoint.pth"]) then
        (ckdir ++ ["base_speakers", "EN_V2", "config.json"],
         ckdir ++ ["base_speakers", "EN_V2", "checkpoint.pth"])
      else
        (["checkpoints", "base_speakers", "EN", "config.json"],
         ["checkpoints", "base_speakers", "EN", "checkpoint.pth"])) :=
  (synthesize_trace_shape ckdir st req oid now v1a t c tr htr).2

/-- C6 witness: with both `EN_V2` files present, a synthesize run passes
exactly the V2 paths to the base model. -/
theorem base_variant_selection_witness :
    (trV2.baseCfg, trV2.baseCkpt) =
      (if ckfsV2.pathExists (ckDemo ++ ["base_speakers", "EN_V2", "config.json"]) &&
          ckfsV2.pathExists (ckDemo ++ ["base_speakers", "EN_V2", "checkpoint.pth"]) then
        (ckDemo ++ ["base_speakers", "EN_V2", "config.json"],
         ckDemo ++ ["base_speakers", "EN_V2", "checkpoint.pth"])
      else
        (["checkpoints", "base_speakers", "EN", "config.json"],
         ["checkpoints", "base_speakers", "EN", "checkpoint.pth"])) :=
  base_variant_selection ckDemo stV2 { text := "hello", voice_id := "v1" } "a1" "t1"
    emptyArchive true true trV2 (by decide)

/-- C7 (confirmed): whenever the request's accent is a key of
`ACCENT_TO_SES_FILE`, the source embedding loaded is exactly the mapped file
resolved under `CHECKPOINT_DIR/base_speakers/ses/`. -/
theorem accent_maps_to_ses_file (ckdir : FPath) (st : ServerState) (req : TTSRequest)
    (oid now : String) (v1a : Archive) (t c : Bool) (tr : SynthTrace) (f : String)
    (hmem : (req.accent, f) ∈ ACCENT_TO_SES_FILE)
    (htr : (synthesize_speech ckdir st req oid now v1a t c).trace = some tr) :
    tr.sesPath = ckdir ++ ["base_speakers", "ses", f] := by
  rw [(synthesize_trace_shape ckdir st req oid now v1a t c tr htr).1,
    sesFileFor_eq_of_mem _ _ hmem]

/-- C7 witness: the accent `fr` resolves to `fr.pth` under the `ses`
directory. -/
theorem accent_maps_to_ses_file_witness :
    ({ baseCfg := trV2.baseCfg, baseCkpt := trV2.baseCkpt,
       sesPath := ["checkpoints_v2", "base_speakers", "ses", "fr.pth"] } :
        SynthTrace).sesPath =
      ckDemo ++ ["base_speakers", "ses", "fr.pth"] :=
  accent_maps_to_ses_file ckDemo stV2
    { text := "hello", voice_id := "v1", accent := "fr" } "a1" "t1"
    emptyArchive true true _ "fr.pth" (by decide) (by decide)

/-- C8 (confirmed): an accent that is no key of `ACCENT_TO_SES_FILE` does not
make the request fail at accent resolution: the source embedding silently
falls back to the default `en-newest.pth` file. -/
theorem accent_fallback_default (ckdir : FPath) (st : ServerState) (req : TTSRequest)
    (oid now : String) (v1a : Archive) (t c : Bool) (tr : SynthTrace)
    (hmem : ACCENT_TO_SES_FILE.all (fun p => !(p.1 == req.accent)) = true)
    (htr : (synthesize_speech ckdir st req oid now v1a t c).trace = some tr) :
    tr.sesPath = ckdir ++ ["base_speakers", "ses", "en-newest.pth"] := by
  have hses : sesFileFor req.accent = "en-newest.pth" := by
    unfold sesFileFor
    rw [List.find?_eq_none.mpr]
    intro x hx
    have := (List.all_eq_true.mp hmem) x hx
    simpa using this
  rw [(synthesize_trace_shape ckdir st req oid now v1a t c tr htr).1, hses]

/-- C8 witness: the unknown accent `de` falls back to `en-newest.pth`. -/
theorem accent_fallback_default_witness :
    trV2.sesPath = ckDemo ++ ["base_speakers", "ses", "en-newest.pth"] :=
  accent_fallback_default ckDemo stV2
    { text := "hello", voice_id := "v1", accent := "de" } "a1" "t1"
    emptyArchive true true trV2 (by decide) (by decide)

lemma removeIfExists_cons_self (l : List String) (p : String) :
    removeIfExists (p :: l) p = l := by
  unfold removeIfExists
  rw [if_pos (by simp), List.erase_cons_head]

lemma cleanup_one (l : List String) (vp sp : String)
    (hsp : l.contains sp = false) :
    removeIfExists (removeIfExists (vp :: l) vp) sp = l := by
  rw [removeIfExists_cons_self]
  unfold removeIfExists
  rw [if_neg (by rw [hsp]; simp)]

lemma cleanup_two (l : List String) (vp sp : String) :
    removeIfExists (removeIfExists (sp :: vp :: l) vp) sp = l := by
  by_cases h : sp = vp
  · subst h
    rw [removeIfExists_cons_self, removeIfExists_cons_self]
  · have h1 : removeIfExists (sp :: vp :: l) vp = sp :: l := by
      unfold removeIfExists
      rw [if_pos (by simp), List.erase_cons,
        if_neg (by simp [h]), List.erase_cons_head]
    rw [h1, removeIfExists_cons_self]

lemma contains_iff_mem (l : List String) (a : String) :
    l.contains a = true ↔ a ∈ l := by
  simp [List.contains, List.elem_eq_mem]

lemma writeFile_fresh (l : List String) (p : String)
    (h : l.contains p = false) : writeFile l p = p :: l := by
  unfold writeFile
  rw [if_neg (by rw [h]; simp)]

lemma writeFile_contains_self (l : List String) (p : String) :
    (writeFile l p).contains p = true := by
  unfold writeFile
  by_cases h : l.contains p = true
  · rw [if_pos h]
    exact h
  · rw [if_neg h]
    simp

lemma writeFile_contains_mono (l : List String) (p q : String)
    (h : l.contains q = true) : (writeFile l p).contains q = true := by
  unfold writeFile
  by_cases hp : l.contains p = true
  · rw [if_pos hp]
    exact h
  · rw [if_neg hp]
    rw [contains_iff_mem]
    exact List.mem_cons_of_mem _ ((contains_iff_mem l q).mp h)

lemma cleanup_writeFile_one (l : List String) (vp sp : String)
    (hvp : l.contains vp = false) (hsp : l.contains sp = false) :
    removeIfExists (removeIfExists (writeFile l vp) vp) sp = l := by
  rw [writeFile_fresh l vp hvp]
  exact cleanup_one l vp sp hsp

lemma cleanup_writeFile_two (l : List String) (vp sp : String)
    (hvp : l.contains vp = false) (hsp : l.contains sp = false) :
    removeIfExists (removeIfExists (writeFile (writeFile l vp) sp) vp) sp = l := by
  rw [writeFile_fresh l vp hvp]
  by_cases h : sp = vp
  · subst h
    rw [show writeFile (sp :: l) sp = sp :: l from by
      unfold writeFile
      rw [if_pos (by simp)]]
    rw [removeIfExists_cons_self]
    unfold removeIfExists
    rw [if_neg (by rw [hsp]; simp)]
  · rw [writeFile_fresh (vp :: l) sp (by rw [List.contains_cons, hsp]; simp [h])]
    exact cleanup_two l vp sp

/-- C9 (confirmed): for an audio-typed upload of fresh file paths (neither
the sample path nor the embedding path is already on disk, as the generated
uuid ensures), a failure of the embedding extraction, the embedding save or
the database insert removes every file written for the upload, inserts no
`voice_models` row and answers 500 — the state is exactly the pre-request
one; and a 200 answer happens exactly when nothing failed, and then both
files exist on disk and the new row is in the database. -/
theorem upload_atomic (st : ServerState) (ct suf nm : String) (d : Option String)
    (vid now : String) (e sv : Bool)
    (hct : startsWithB ct "audio/" = true)
    (hvp : st.files.contains (voiceFilePath vid suf) = false)
    (hsp : st.files.contains (seFilePath vid) = false) :
    ((!e || !sv || st.db.voice_models.any (fun v => v.id == vid)) = true →
        upload_voice st ct suf nm d vid now e sv = (st, Resp.serverError)) ∧
      ((e && sv && !(st.db.voice_models.any (fun v => v.id == vid))) = true →
        (upload_voice st ct suf nm d vid now e sv).2 = Resp.ok ∧
          (upload_voice st ct suf nm d vid now e sv).1.files.contains
            (voiceFilePath vid suf) = true ∧
          (upload_voice st ct suf nm d vid now e sv).1.files.contains
            (seFilePath vid) = true ∧
          (upload_voice st ct suf nm d vid now e sv).1.db.voice_models =
            { id := vid, name := nm, description := d,
              file_path := voiceFilePath vid suf, se_file_path := seFilePath vid,
              created_at := now } :: st.db.voice_models) := by
  unfold upload_voice
  rw [if_neg (by simp [hct])]
  dsimp only
  cases e with
  | false =>
      refine ⟨fun _ => ?_, fun hc => nomatch hc⟩
      rw [if_pos (show (!false) = true from rfl)]
      rw [cleanup_writeFile_one st.files (voiceFilePath vid suf) (seFilePath vid) hvp hsp]
  | true =>
      cases sv with
      | false =>
          refine ⟨fun _ => ?_, fun hc => nomatch hc⟩
          rw [if_neg (show ¬((!true) = true) by decide)]
          rw [if_pos (show (!false) = true from rfl)]
          rw [cleanup_writeFile_one st.files (voiceFilePath vid suf) (seFilePath vid) hvp hsp]
      | true =>
          cases hany : st.db.voice_models.any (fun v => v.id == vid) with
          | true =>
              refine ⟨fun _ => ?_, fun hc => absurd hc (by decide)⟩
              rw [if_neg (show ¬((!true) = true) by decide)]
              rw [if_neg (show ¬((!true) = true) by decide)]
              rw [if_pos (show (true : Bool) = true from rfl)]
              rw [cleanup_writeFile_two st.files (voiceFilePath vid suf) (seFilePath vid) hvp hsp]
          | false =>
              refine ⟨fun hc => absurd hc (by decide), fun _ => ?_⟩
              rw [if_neg (show ¬((!true) = true) by decide)]
              rw [if_neg (show ¬((!true) = true) by decide)]
              rw [if_neg (show ¬((false : Bool) = true) by decide)]
              refine ⟨rfl, ?_, ?_, rfl⟩
              · exact writeFile_contains_mono _ _ _ (writeFile_contains_self _ _)
              · exact writeFile_contains_self _ _

/-- C9 witness: a failing embedding extraction leaves the state exactly as it
was and answers 500. -/
theorem upload_atomic_witness :
    upload_voice stDemo "audio/wav" ".wav" "carol" none "v9" "t3" false true =
      (stDemo, Resp.serverError) :=
  (upload_atomic stDemo "audio/wav" ".wav" "carol" none "v9" "t3" false true
    (by decide) (by decide) (by decide)).1 (by decide)

/-- C10 (confirmed): an upload whose content type does not start with
`audio/` is rejected with a 400 before any file is written or row inserted:
the state is returned unchanged. -/
theorem upload_rejects_non_audio (st : ServerState) (ct suf nm : String)
    (d : Option String) (vid now : String) (e sv : Bool)
    (hct : startsWithB ct "audio/" = false) :
    upload_voice st ct suf nm d vid now e sv = (st, Resp.badRequest) := by
  unfold upload_voice
  rw [if_pos (by simp [hct])]

/-- C10 witness: a `text/plain` upload is rejected with a 400 and no state
change. -/
theorem upload_rejects_non_audio_witness :
    upload_voice stDemo "text/plain" ".txt" "mallory" none "v9" "t3" true true =
      (stDemo, Resp.badRequest) :=
  upload_rejects_non_audio stDemo "text/plain" ".txt" "mallory" none "v9" "t3"
    true true (by decide)

end VoiceServer
